import Mathlib

/-!
Verification of the inputdataTools repository: the relink tool's
replace-file-with-symlink protocol and ownership scanner (src/relink.py),
and rimport's staging decision engine (modelled from the spec, since the
rimport script itself is not present under src/ -- only its tests are).

Paths are modelled as lists of components (POSIX absolute paths without
the leading slash); the filesystem as a partial map from paths to nodes.
-/

/-- A filesystem path, as its list of components. -/
abbrev FPath := List String

/-- A filesystem node: a regular file with its content, or a symbolic link
with its (unresolved) target path.  Directories are implicit: `os.makedirs`
never fails to create missing parents in this model except by injected
fault, matching the code's use of `exist_ok=True`. -/
inductive FNode where
  | file (content : String) : FNode
  | symlink (target : FPath) : FNode
deriving DecidableEq

/-- The filesystem: a partial map from paths to nodes. -/
abbrev FS := FPath → Option FNode

/-- Python's `file_path + ".tmp"`: append ".tmp" to the last component. -/
def tmpPath : FPath → FPath
  | [] => [(".tmp")]
  | [x] => [x ++ (".tmp")]
  | x :: y :: rest => x :: tmpPath (y :: rest)

/-- Strip the longest common leading run of components from two paths,
returning the two remainders.  Helper for `relpath`. -/
def stripCommon : FPath → FPath → (FPath × FPath)
  | a :: as, b :: bs => if a = b then stripCommon as bs else (a :: as, b :: bs)
  | as, bs => (as, bs)

/-- `os.path.relpath(p, root)`: remove the common leading components, then
one ".." per remaining component of `root`.  (Python returns "." when the
two are equal; here that is the empty component list, and `os.path.join`
with it is the identity, matching the path `root/.` after normalisation.) -/
def relpath (p root : FPath) : FPath :=
  let pr := stripCommon p root
  List.replicate (pr.2.length) ("..") ++ pr.1

/-- True ancestor-or-equal test on paths: `root` is a component-wise
leading run of `p`.  This is `pathlib.Path.is_relative_to`, a true
path-containment test, not a substring search. -/
def pathHasRoot (p root : FPath) : Bool :=
  match root, p with
  | [], _ => true
  | _ :: _, [] => false
  | r :: rs, a :: as => (r = a) && pathHasRoot as rs

/-- Symlink-following existence test with bounded link traversal.
`os.path.exists` resolves symlinks; the OS bounds traversal (MAXSYMLINKS,
40 on Linux), returning failure (ELOOP) on longer chains or cycles. -/
def pathExists (fs : FS) : Nat → FPath → Bool
  | 0, _ => false
  | n + 1, p =>
    match fs p with
    | some (.file _) => true
    | some (.symlink t) => pathExists fs n t
    | none => false

/-- `os.path.exists`, with the OS symlink-traversal bound. -/
def os_path_exists (fs : FS) (p : FPath) : Bool := pathExists fs 40 p

/-- Bounded resolution that additionally requires the chain to avoid the
two given paths.  Used to state when a resolution chain is unaffected by
an operation that rewrites only those two paths. -/
def resolvesAvoiding (fs : FS) (a b : FPath) : Nat → FPath → Bool
  | 0, _ => false
  | n + 1, p =>
    if p = a ∨ p = b then false
    else
      match fs p with
      | some (.file _) => true
      | some (.symlink t) => resolvesAvoiding fs a b n t
      | none => false

/-- Point update of the filesystem map. -/
def fsUpdate (fs : FS) (p : FPath) (v : Option FNode) : FS :=
  fun q => if q = p then v else fs q

/-- `os.rename(src, dst)` as a total map transformation (clobbers `dst` if
present, as POSIX rename does).  The fallible wrapper is `fsRename`; this
total form is used for the recovery rename in the `except` branch, which
the source code does not guard and whose source (`.tmp`) exists in every
reachable failure state. -/
def fsRenameF (fs : FS) (src dst : FPath) : FS :=
  fun q => if q = dst then fs src else if q = src then none else fs q

/-- `os.rename(src, dst)`: fails (OSError) if `src` does not exist. -/
def fsRename (fs : FS) (src dst : FPath) : Option FS :=
  match fs src with
  | none => none
  | some _ => some (fsRenameF fs src dst)

/-- `os.symlink(target, link_name)`: fails (FileExistsError) if something
already sits at `link_name`; never inspects `target`. -/
def fsSymlink (fs : FS) (target link_name : FPath) : Option FS :=
  match fs link_name with
  | some _ => none
  | none => some (fsUpdate fs link_name (some (.symlink target)))

/-- `os.remove(p)`: fails (OSError) if `p` does not exist. -/
def fsRemove (fs : FS) (p : FPath) : Option FS :=
  match fs p with
  | none => none
  | some _ => some (fsUpdate fs p none)

/-- Fault injection: force an operation to raise OSError. -/
def withFault (fault : Bool) (r : Option FS) : Option FS :=
  if fault then none else r

/-- Which filesystem operations of `replace_one_file_with_symlink` are made
to raise OSError in a given run. -/
structure Faults where
  renameToTmp : Bool
  makedirs : Bool
  symlinkStep : Bool
  removeTmp : Bool
deriving DecidableEq

/-- A run with no injected faults. -/
def noFaults : Faults := ⟨false, false, false, false⟩

/-- Observable log messages emitted by the modelled operations.  Each
constructor carries the paths the corresponding Python log line mentions. -/
inductive LogEvent where
  | warnNotFound (link_target file_path : FPath)
  | dryRunWould (file_path link_target : FPath)
  | errDeleting (file_path : FPath)
  | errCreatingSymlink (file_path : FPath)
  | createdSymlink (link_name link_target : FPath)
  | alreadyPublishedAndLinked (source : FPath)
  | publishedNotLinked (source : FPath)
  | notAlreadyPublished (source : FPath)
  | copied (src dst : FPath)
  | downloadable (p : FPath)
  | notDownloadable (p : FPath)
deriving DecidableEq

/-- Does the event record an invocation of the copy operation? -/
def LogEvent.isCopy : LogEvent → Bool
  | .copied _ _ => true
  | _ => false

/-- Is the event one of the error logs of `replace_one_file_with_symlink`? -/
def LogEvent.isReplaceError : LogEvent → Bool
  | .errDeleting _ => true
  | .errCreatingSymlink _ => true
  | _ => false

/-- Result of a filesystem-mutating operation: the final filesystem and the
log messages emitted, in order. -/
structure ReplaceResult where
  fs : FS
  events : List LogEvent

/-- relink.py, `replace_one_file_with_symlink` (lines 217-273): compute
`link_target = target_dir / relpath(file_path, inputdata_root)`; warn and
return if it does not exist; honour dry-run; otherwise rename the file to
`file_path + ".tmp"`, create the symlink (creating parent directories
first), remove the `.tmp`; on any OSError in that try-block, rename the
`.tmp` back over `file_path` and log the error. -/
def replace_one_file_with_symlink (faults : Faults) (fs : FS)
    (inputdata_root target_dir file_path : FPath) (dry_run : Bool) :
    ReplaceResult :=
  if os_path_exists fs (target_dir ++ relpath file_path inputdata_root) = false then
    ⟨fs, [.warnNotFound (target_dir ++ relpath file_path inputdata_root) file_path]⟩
  else if dry_run then
    ⟨fs, [.dryRunWould file_path (target_dir ++ relpath file_path inputdata_root)]⟩
  else
    match withFault faults.renameToTmp (fsRename fs file_path (tmpPath file_path)) with
    | none => ⟨fs, [.errDeleting file_path]⟩
    | some fs1 =>
      -- os.makedirs(..., exist_ok=True): directories are implicit in the
      -- model, so this step changes nothing and fails only by fault.
      if faults.makedirs then
        ⟨fsRenameF fs1 (tmpPath file_path) file_path, [.errCreatingSymlink file_path]⟩
      else
        match withFault faults.symlinkStep
            (fsSymlink fs1 (target_dir ++ relpath file_path inputdata_root) file_path) with
        | none =>
          ⟨fsRenameF fs1 (tmpPath file_path) file_path, [.errCreatingSymlink file_path]⟩
        | some fs2 =>
          match withFault faults.removeTmp (fsRemove fs2 (tmpPath file_path)) with
          | none =>
            ⟨fsRenameF fs2 (tmpPath file_path) file_path, [.errCreatingSymlink file_path]⟩
          | some fs3 => ⟨fs3, [.createdSymlink file_path (target_dir ++ relpath file_path inputdata_root)]⟩

/-- The view of an `os.DirEntry` that `_handle_non_dir_entry` consumes:
its path, its lstat owner uid (`stat(follow_symlinks=False).st_uid`),
`is_file(follow_symlinks=False)`, and `is_symlink()`.  A POSIX entry that
is a symlink is never a regular file when links are not followed; model
wellformedness states that where a theorem needs it. -/
structure DirEntryView where
  path : String
  st_uid : Nat
  is_file_nofollow : Bool
  is_symlink : Bool
deriving DecidableEq

/-- The view of a bare path string that `_handle_non_dir_str` consumes:
its lstat owner uid, `os.path.isfile` (which FOLLOWS symlinks), and
`os.path.islink`. -/
structure PathView where
  path : String
  st_uid : Nat
  isfile : Bool
  islink : Bool
deriving DecidableEq

/-- relink.py, `_handle_non_dir_entry` (lines 35-58): return the path iff
the lstat owner matches and the entry is a regular file without following
symlinks; a matching-owner symlink is logged at debug and skipped. -/
def handle_non_dir_entry (entry : DirEntryView) (user_uid : Nat) : Option String :=
  if entry.st_uid = user_uid then
    if entry.is_file_nofollow then some entry.path
    else none
  else none

/-- relink.py, `_handle_non_dir_str` (lines 61-90): same test for a bare
path; checks `islink` first (skip), then `isfile` (return). -/
def handle_non_dir_str (v : PathView) (user_uid : Nat) : Option String :=
  if v.st_uid = user_uid then
    if v.islink then none
    else if v.isfile then some v.path
    else none
  else none

/-- relink.py, `handle_non_dir` (lines 93-128): dispatch on the argument's
type — a string path or a DirEntry-like object. -/
def handle_non_dir (var : Sum DirEntryView PathView) (user_uid : Nat) : Option String :=
  match var with
  | .inr v => handle_non_dir_str v user_uid
  | .inl entry => handle_non_dir_entry entry user_uid

mutual
/-- A directory entry as seen by `os.scandir`, carrying its absolute path.
`dir` is an entry with `is_dir(follow_symlinks=False)` true whose own scan
succeeds; `unreadableDir` one whose recursive `os.scandir` raises OSError;
`errEntry` one whose `is_dir`/stat raises OSError; `symlink` carries what
it points at (a directory's entries, a file, or nothing), which a scan
that followed links would traverse. -/
inductive FSEntry where
  | file (path : String) (uid : Nat) : FSEntry
  | symlink (path : String) (uid : Nat) (target : SymTarget) : FSEntry
  | dir (path : String) (uid : Nat) (entries : FSEntries) : FSEntry
  | unreadableDir (path : String) (uid : Nat) : FSEntry
  | errEntry (path : String) : FSEntry

/-- What a symlink entry points at. -/
inductive SymTarget where
  | toNone : SymTarget
  | toFile : SymTarget
  | toDir (entries : FSEntries) : SymTarget

/-- A list of directory entries (explicit, to permit mutual recursion). -/
inductive FSEntries where
  | nil : FSEntries
  | cons (e : FSEntry) (rest : FSEntries) : FSEntries
end

/-- The `DirEntryView` of a non-directory entry: lstat uid,
`is_file(follow_symlinks=False)`, `is_symlink()`. -/
def FSEntry.entryView : FSEntry → DirEntryView
  | .file p u => ⟨p, u, true, false⟩
  | .symlink p u _ => ⟨p, u, false, true⟩
  | .dir p u _ => ⟨p, u, false, false⟩
  | .unreadableDir p u => ⟨p, u, false, false⟩
  | .errEntry p => ⟨p, 0, false, false⟩

mutual
/-- relink.py, `find_owned_files_scandir` entry loop (lines 151-167): an
entry that is a directory without following symlinks is recursed into (a
failing recursive scandir is caught by the recursive call's own except,
yielding nothing); anything else goes through `handle_non_dir`; an OSError
while examining an entry is caught, logged and the entry skipped. -/
def scanEntry (e : FSEntry) (user_uid : Nat) (inputdata_root : String) : List String :=
  match e with
  | .dir _ _ children => scanEntriesList children user_uid inputdata_root
  | .unreadableDir _ _ => []
  | .errEntry _ => []
  | .file p u => (handle_non_dir (.inl (FSEntry.file p u).entryView) user_uid).toList
  | .symlink p u t => (handle_non_dir (.inl (FSEntry.symlink p u t).entryView) user_uid).toList

/-- The loop over a scandir listing, concatenating what each entry yields. -/
def scanEntriesList (es : FSEntries) (user_uid : Nat) (inputdata_root : String) : List String :=
  match es with
  | .nil => []
  | .cons e rest => scanEntry e user_uid inputdata_root ++ scanEntriesList rest user_uid inputdata_root
end

/-- The starting item handed to `find_owned_files_scandir`: a directory
that `os.scandir` opens, a non-directory (scandir raises
NotADirectoryError and the item goes through `handle_non_dir` as a
string), or an item on which scandir raises any other OSError or
PermissionError (nonexistent path, permission denied, ...). -/
inductive ScanItem where
  | openedDir (entries : FSEntries) : ScanItem
  | nonDirItem (v : PathView) : ScanItem
  | openErr : ScanItem

/-- relink.py, `find_owned_files_scandir` (lines 131-174), as the list of
paths the generator yields. -/
def find_owned_files_scandir (item : ScanItem) (user_uid : Nat) (inputdata_root : String) : List String :=
  match item with
  | .openedDir entries => scanEntriesList entries user_uid inputdata_root
  | .nonDirItem v => (handle_non_dir (.inr v) user_uid).toList
  | .openErr => []

mutual
/-- Spec-side description (§8 "Ownership filter correctness"): the plain
regular files owned by the user, read directly off the tree, not
descending into symlink targets. -/
def specOwnedFilesE (e : FSEntry) (user_uid : Nat) : List String :=
  match e with
  | .file p u => if u = user_uid then [p] else []
  | .dir _ _ children => specOwnedFilesL children user_uid
  | _ => []

/-- Spec-side owned plain files of a listing. -/
def specOwnedFilesL (es : FSEntries) (user_uid : Nat) : List String :=
  match es with
  | .nil => []
  | .cons e rest => specOwnedFilesE e user_uid ++ specOwnedFilesL rest user_uid
end

mutual
/-- Erase every symlink's target from the tree, leaving everything else in
place.  A scan that never follows symlinks cannot distinguish a tree from
its erased form. -/
def pruneEntry : FSEntry → FSEntry
  | .symlink p u _ => .symlink p u .toNone
  | .dir p u children => .dir p u (pruneEntries children)
  | e => e

/-- Erase symlink targets throughout a listing. -/
def pruneEntries : FSEntries → FSEntries
  | .nil => .nil
  | .cons e rest => .cons (pruneEntry e) (pruneEntries rest)
end

/-- Erase symlink targets from a scan's starting item. -/
def pruneItem : ScanItem → ScanItem
  | .openedDir entries => .openedDir (pruneEntries entries)
  | i => i

mutual
/-- Paths of the plain-file entries of the tree (not inside symlink targets). -/
def filePathsE : FSEntry → List String
  | .file p _ => [p]
  | .dir _ _ children => filePathsL children
  | _ => []

/-- Paths of the plain-file entries of a listing. -/
def filePathsL : FSEntries → List String
  | .nil => []
  | .cons e rest => filePathsE e ++ filePathsL rest
end

mutual
/-- Paths of the symlink entries of the tree. -/
def symlinkPathsE : FSEntry → List String
  | .symlink p _ _ => [p]
  | .dir _ _ children => symlinkPathsL children
  | _ => []

/-- Paths of the symlink entries of a listing. -/
def symlinkPathsL : FSEntries → List String
  | .nil => []
  | .cons e rest => symlinkPathsE e ++ symlinkPathsL rest
end

/-- Errors raised by rimport's staging engine.  Each constructor stands
for the exception and message documented in the spec: FileNotFoundError
"source not found", RuntimeError "Source is a broken symlink", RuntimeError
"target is outside staging directory", RuntimeError "already under staging
directory", RuntimeError "not under inputdata root", and RuntimeError
"Error relinking during rimport". -/
inductive StageErr where
  | sourceNotFound : StageErr
  | brokenSymlink : StageErr
  | targetOutsideStaging : StageErr
  | alreadyUnderStaging : StageErr
  | notUnderInputdataRoot : StageErr
  | relinkFailed : StageErr
deriving DecidableEq

/-- The outcome of a `stage_data` call: the filesystem afterwards, the log
messages emitted, and the exception raised, if any (an exception does not
undo earlier filesystem mutations). -/
structure StageResult where
  fs : FS
  events : List LogEvent
  err : Option StageErr

/-- Bounded full symlink resolution: the final existing regular file's
path, if resolution terminates within the fuel.  `Path.resolve` /
`os.path.realpath` semantics over this model. -/
def resolveFinal (fs : FS) : Nat → FPath → Option FPath
  | 0, _ => none
  | n + 1, p =>
    match fs p with
    | some (.file _) => some p
    | some (.symlink t) => resolveFinal fs n t
    | none => none

/-- `shutil.copy2(src, dst)` preceded by `os.makedirs` of dst's parent:
duplicate the content (and, implicitly, metadata) of `src` at `dst`. -/
def fsCopy2 (fs : FS) (src dst : FPath) : FS :=
  fun q => if q = dst then fs src else fs q

/-- Modelled from the spec: rimport's `check_relink_worked` is not present
under src/ (only its tests, src/tests/rimport/test_check_relink_worked.py).
Per spec §4.4 step 6 and the tests, it succeeds iff `src` is now a symlink
whose (resolved) target equals `dst` — the tests accept a symlink whose
direct target is `dst` even when `dst` itself does not exist — and
otherwise raises RuntimeError "Error relinking during rimport". -/
def check_relink_worked (fs : FS) (src dst : FPath) : Option StageErr :=
  match fs src with
  | some (.symlink t) => if t = dst then none else some .relinkFailed
  | _ => some .relinkFailed

/-- Modelled from the spec: rimport's `stage_data` is not present under
src/ (only its tests, src/tests/rimport/test_stage_data.py).  Per spec
§4.4, classify the source path in priority order — nonexistent; symlink
(broken / already published and linked / pointing outside staging); lying
under the staging root; not under the inputdata root; plain file — and in
the plain-file case either relink only (staged copy already exists), stop
in check mode, or copy then relink; after any copy+relink branch verify
the relink with `check_relink_worked`.  `canDownload` abstracts the
external `can_file_be_downloaded` predicate (informational only). -/
def stage_data (faults : Faults) (canDownload : FPath → Bool) (fs : FS)
    (source inputdata_root staging_root : FPath) (check : Bool) :
    StageResult :=
  match fs source with
  | none => ⟨fs, [], some .sourceNotFound⟩
  | some (.symlink t) =>
    match resolveFinal fs 40 t with
    | none => ⟨fs, [], some .brokenSymlink⟩
    | some final =>
      if pathHasRoot final staging_root then
        ⟨fs, [.alreadyPublishedAndLinked source,
          if canDownload final then .downloadable final else .notDownloadable final], none⟩
      else ⟨fs, [], some .targetOutsideStaging⟩
  | some (.file _) =>
    if pathHasRoot source staging_root then ⟨fs, [], some .alreadyUnderStaging⟩
    else if pathHasRoot source inputdata_root = false then
      ⟨fs, [], some .notUnderInputdataRoot⟩
    else
      if os_path_exists fs (staging_root ++ relpath source inputdata_root) then
        -- already published but NOT linked: do not copy again; relink only
        let r := replace_one_file_with_symlink faults fs inputdata_root staging_root source false
        match check_relink_worked r.fs source (staging_root ++ relpath source inputdata_root) with
        | some e => ⟨r.fs, .publishedNotLinked source :: r.events, some e⟩
        | none =>
          ⟨r.fs, .publishedNotLinked source :: r.events ++
            [if canDownload (staging_root ++ relpath source inputdata_root) then
              .downloadable (staging_root ++ relpath source inputdata_root)
             else .notDownloadable (staging_root ++ relpath source inputdata_root)], none⟩
      else if check then
        ⟨fs, [.notAlreadyPublished source], none⟩
      else
        let fs1 := fsCopy2 fs source (staging_root ++ relpath source inputdata_root)
        let r := replace_one_file_with_symlink faults fs1 inputdata_root staging_root source false
        match check_relink_worked r.fs source (staging_root ++ relpath source inputdata_root) with
        | some e => ⟨r.fs, .copied source (staging_root ++ relpath source inputdata_root) :: r.events, some e⟩
        | none => ⟨r.fs, .copied source (staging_root ++ relpath source inputdata_root) :: r.events, none⟩

/-- Concrete filesystem: a staged counterpart exists for `in/a.nc`. -/
def wFS1 : FS := fun p =>
  if p = ["in", "a.nc"] then some (.file ("d"))
  else if p = ["out", "a.nc"] then some (.file ("d"))
  else none

/-- Concrete filesystem where the staging tree links back into the
inputdata tree: `out/a.nc` is a symlink to `in/a.nc`. -/
def cFS2 : FS := fun p =>
  if p = ["in", "a.nc"] then some (.file ("x"))
  else if p = ["out", "a.nc"] then some (.symlink ["in", "a.nc"])
  else none

/-- Staging root whose last component is the real staging tree's marker
string (`d651077` appears in DEFAULT_STAGING_ROOT). -/
def wStaging : FPath := ["stage", "d651077"]

/-- A path outside the inputdata root whose file name contains the
staging-root marker as a substring. -/
def wOutsideSrc : FPath := ["tmp", "outside", "file_d651077.nc"]

/-- Concrete filesystem containing only the outside file. -/
def wFS3 : FS := fun p =>
  if p = ["tmp", "outside", "file_d651077.nc"] then some (.file ("data")) else none

/-- Concrete filesystem: the file is already published (present both under
the inputdata root and under the staging root) but not linked. -/
def wFS4 : FS := fun p =>
  if p = ["in", "b.nc"] then some (.file ("data"))
  else if p = ["stage", "d651077", "b.nc"] then some (.file ("data"))
  else none

/-- Concrete filesystem: the file exists only under the inputdata root. -/
def wFS5 : FS := fun p =>
  if p = ["in", "c.nc"] then some (.file ("data")) else none

/-- Concrete filesystem: a file with no staged counterpart. -/
def wFS8 : FS := fun p =>
  if p = ["in", "o.nc"] then some (.file ("data")) else none

/-- A small scandir listing: two owned files, an owned symlink, a
subdirectory holding a file owned by someone else. -/
def wTree : FSEntries :=
  .cons (.file ("in/a.nc") 100)
  (.cons (.symlink ("in/l.nc") 100 .toFile)
  (.cons (.dir ("in/d") 100 (.cons (.file ("in/d/x.nc") 201) .nil))
  (.cons (.file ("in/b.nc") 100)
  .nil)))

/-- A listing holding a symlink to an external directory that contains a
plain file owned by the scanned-for user. -/
def wTree7 : FSEntries :=
  .cons (.file ("in/a.nc") 100)
  (.cons (.symlink ("in/ext") 100 (.toDir (.cons (.file ("ext/owned.nc") 100) .nil)))
  .nil)

/-- Total last component of a path (empty string for the empty path). -/
def lastStr : FPath → String
  | [] => ("")
  | [x] => x
  | _ :: y :: rest => lastStr (y :: rest)

theorem tmpPath_ne (p : FPath) : tmpPath p ≠ p := by
  induction p with
  | nil => simp [tmpPath]
  | cons x xs ih =>
    cases xs with
    | nil =>
      simp only [tmpPath, ne_eq, List.cons.injEq, and_true, not_and, List.cons_ne_nil]
      intro h
      have hlen := congrArg String.length h
      have h4 : (".tmp").length = 4 := by decide
      rw [String.length_append, h4] at hlen
      omega
    | cons y ys =>
      intro h
      injection h with h1 h2
      exact ih h2

theorem tmpPath_ne_nil (p : FPath) : tmpPath p ≠ [] := by
  cases p with
  | nil => simp [tmpPath]
  | cons x xs => cases xs <;> simp [tmpPath]

theorem lastStr_cons (x : String) (l : FPath) (h : l ≠ []) :
    lastStr (x :: l) = lastStr l := by
  cases l with
  | nil => exact absurd rfl h
  | cons y ys => rfl

theorem lastStr_append (a rest : FPath) (h : rest ≠ []) :
    lastStr (a ++ rest) = lastStr rest := by
  induction a with
  | nil => rfl
  | cons x xs ih =>
    have hne : xs ++ rest ≠ [] := by
      intro hcon
      rcases List.append_eq_nil.mp hcon with ⟨-, h2⟩
      exact h h2
    rw [List.cons_append, lastStr_cons x (xs ++ rest) hne, ih]

theorem lastStr_tmpPath (p : FPath) : lastStr (tmpPath p) = lastStr p ++ (".tmp") := by
  induction p with
  | nil => simp [tmpPath, lastStr]
  | cons x xs ih =>
    cases xs with
    | nil => simp [tmpPath, lastStr]
    | cons y ys =>
      have h1 : tmpPath (x :: y :: ys) = x :: tmpPath (y :: ys) := rfl
      rw [h1, lastStr_cons x (tmpPath (y :: ys)) (tmpPath_ne_nil (y :: ys)),
        lastStr_cons x (y :: ys) (by simp), ih]

theorem staged_ne_tmpPath (root staging rest : FPath) (hr : rest ≠ []) :
    staging ++ rest ≠ tmpPath (root ++ rest) := by
  intro h
  have h1 : lastStr (staging ++ rest) = lastStr rest := lastStr_append _ _ hr
  rw [h, lastStr_tmpPath, lastStr_append _ _ hr] at h1
  have hlen := congrArg String.length h1
  have h4 : (".tmp").length = 4 := by decide
  rw [String.length_append, h4] at hlen
  omega

theorem pathHasRoot_append (root rest : FPath) : pathHasRoot (root ++ rest) root = true := by
  induction root with
  | nil => cases rest <;> simp [pathHasRoot]
  | cons r rs ih => simp [pathHasRoot, ih]

theorem pathHasRoot_decomp (root : FPath) :
    ∀ p : FPath, pathHasRoot p root = true → ∃ rest, p = root ++ rest := by
  induction root with
  | nil => exact fun p _ => ⟨p, rfl⟩
  | cons r rs ih =>
    intro p h
    cases p with
    | nil => simp [pathHasRoot] at h
    | cons a as =>
      simp only [pathHasRoot, Bool.and_eq_true, decide_eq_true_eq] at h
      obtain ⟨rest, hrest⟩ := ih as h.2
      exact ⟨rest, by rw [← h.1, hrest]; rfl⟩

theorem stripCommon_append (root : FPath) :
    ∀ rest : FPath, stripCommon (root ++ rest) root = (rest, []) := by
  induction root with
  | nil => intro rest; cases rest <;> simp [stripCommon]
  | cons r rs ih => intro rest; simp [stripCommon, ih]

theorem relpath_append (root rest : FPath) : relpath (root ++ rest) root = rest := by
  simp [relpath, stripCommon_append]

theorem pathExists_file (fs : FS) (p : FPath) (c : String) (n : Nat)
    (h : fs p = some (.file c)) : pathExists fs (n + 1) p = true := by
  simp [pathExists, h]

theorem os_path_exists_file (fs : FS) (p : FPath) (c : String)
    (h : fs p = some (.file c)) : os_path_exists fs p = true :=
  pathExists_file fs p c 39 h

theorem restore_of_renamed (fs : FS) (fp : FPath) :
    fsRenameF (fsRenameF fs fp (tmpPath fp)) (tmpPath fp) fp =
      fun q => if q = tmpPath fp then none else fs q := by
  funext q
  have htmp : tmpPath fp ≠ fp := tmpPath_ne fp
  by_cases h1 : q = fp
  · subst h1
    simp [fsRenameF, htmp, Ne.symm htmp]
  · by_cases h2 : q = tmpPath fp
    · subst h2
      simp [fsRenameF, htmp]
    · simp [fsRenameF, h1, h2]

theorem restore_of_symlinked (fs : FS) (fp : FPath) (v : Option FNode) :
    fsRenameF (fsUpdate (fsRenameF fs fp (tmpPath fp)) fp v) (tmpPath fp) fp =
      fun q => if q = tmpPath fp then none else fs q := by
  funext q
  have htmp : tmpPath fp ≠ fp := tmpPath_ne fp
  by_cases h1 : q = fp
  · subst h1
    simp [fsRenameF, fsUpdate, htmp, Ne.symm htmp]
  · by_cases h2 : q = tmpPath fp
    · subst h2
      simp [fsRenameF, fsUpdate, htmp]
    · simp [fsRenameF, fsUpdate, h1, h2]

theorem replace_success_spec (fs : FS) (root tgt fp : FPath) (c : String)
    (hfile : fs fp = some (.file c))
    (hex : os_path_exists fs (tgt ++ relpath fp root) = true) :
    replace_one_file_with_symlink noFaults fs root tgt fp false =
      ⟨fun q => if q = fp then some (.symlink (tgt ++ relpath fp root))
        else if q = tmpPath fp then none else fs q,
       [.createdSymlink fp (tgt ++ relpath fp root)]⟩ := by
  have htmp : tmpPath fp ≠ fp := tmpPath_ne fp
  have h1 : fsRenameF fs fp (tmpPath fp) fp = none := by
    simp [fsRenameF, Ne.symm htmp]
  have h2 : fsUpdate (fsRenameF fs fp (tmpPath fp)) fp
      (some (.symlink (tgt ++ relpath fp root))) (tmpPath fp) = some (.file c) := by
    simp [fsUpdate, fsRenameF, htmp, hfile]
  simp only [replace_one_file_with_symlink, hex, Bool.true_eq_false, if_false, noFaults,
    withFault, Bool.false_eq_true, ite_false, fsRename, hfile, fsSymlink, h1, fsRemove, h2]
  congr 1
  funext q
  by_cases hq1 : q = fp
  · subst hq1
    simp [fsUpdate, fsRenameF, Ne.symm htmp]
  · by_cases hq2 : q = tmpPath fp
    · subst hq2
      simp [fsUpdate, fsRenameF, htmp]
    · simp [fsUpdate, fsRenameF, hq1, hq2]

theorem replace_tryfail_spec (fs : FS) (root tgt fp : FPath) (c : String)
    (m s r : Bool)
    (hfile : fs fp = some (.file c))
    (hex : os_path_exists fs (tgt ++ relpath fp root) = true)
    (hfail : (m || s || r) = true) :
    replace_one_file_with_symlink ⟨false, m, s, r⟩ fs root tgt fp false =
      ⟨fun q => if q = tmpPath fp then none else fs q, [.errCreatingSymlink fp]⟩ := by
  have htmp : tmpPath fp ≠ fp := tmpPath_ne fp
  have h1 : fsRenameF fs fp (tmpPath fp) fp = none := by
    simp [fsRenameF, Ne.symm htmp]
  cases m with
  | true =>
    simp only [replace_one_file_with_symlink, hex, Bool.true_eq_false, if_false, withFault,
      Bool.false_eq_true, ite_false, ite_true, fsRename, hfile, restore_of_renamed]
  | false =>
    cases s with
    | true =>
      simp only [replace_one_file_with_symlink, hex, Bool.true_eq_false, if_false, withFault,
        Bool.false_eq_true, ite_false, ite_true, fsRename, hfile, restore_of_renamed]
    | false =>
      cases r with
      | false => simp at hfail
      | true =>
        simp only [replace_one_file_with_symlink, hex, Bool.true_eq_false, if_false, withFault,
          Bool.false_eq_true, ite_false, ite_true, fsRename, hfile, fsSymlink, h1,
          restore_of_symlinked]

theorem resolvesAvoiding_pathExists (fs fs2 : FS) (a b : FPath)
    (hagree : ∀ q, q ≠ a → q ≠ b → fs2 q = fs q) :
    ∀ (n : Nat) (p : FPath), resolvesAvoiding fs a b n p = true → pathExists fs2 n p = true := by
  intro n
  induction n with
  | zero => intro p h; simp [resolvesAvoiding] at h
  | succ k ih =>
    intro p h
    simp only [resolvesAvoiding] at h
    by_cases hp : p = a ∨ p = b
    · rw [if_pos hp] at h; exact absurd h (by simp)
    · rw [if_neg hp] at h
      push_neg at hp
      have hfs := hagree p hp.1 hp.2
      simp only [pathExists, hfs]
      cases hnode : fs p with
      | none => rw [hnode] at h; exact absurd h (by simp)
      | some node =>
        cases node with
        | file t => rfl
        | symlink t =>
          rw [hnode] at h
          exact ih t h

mutual
theorem scanEntry_eq_spec (e : FSEntry) (u : Nat) (r : String) :
    scanEntry e u r = specOwnedFilesE e u := by
  cases e with
  | file p uid =>
    simp only [scanEntry, specOwnedFilesE, handle_non_dir, handle_non_dir_entry,
      FSEntry.entryView, ite_true]
    split <;> rfl
  | symlink p uid t =>
    simp only [scanEntry, specOwnedFilesE, handle_non_dir, handle_non_dir_entry,
      FSEntry.entryView, Bool.false_eq_true, ite_false]
    split <;> rfl
  | dir p uid children =>
    simp only [scanEntry, specOwnedFilesE]
    exact scanEntriesList_eq_spec children u r
  | unreadableDir p uid => rfl
  | errEntry p => rfl

theorem scanEntriesList_eq_spec (es : FSEntries) (u : Nat) (r : String) :
    scanEntriesList es u r = specOwnedFilesL es u := by
  cases es with
  | nil => rfl
  | cons e rest =>
    simp only [scanEntriesList, specOwnedFilesL]
    rw [scanEntry_eq_spec e u r, scanEntriesList_eq_spec rest u r]
end

mutual
theorem scanEntry_prune (e : FSEntry) (u : Nat) (r : String) :
    scanEntry (pruneEntry e) u r = scanEntry e u r := by
  cases e with
  | file p uid => rfl
  | symlink p uid t => rfl
  | dir p uid children =>
    simp only [pruneEntry, scanEntry]
    exact scanEntriesList_prune children u r
  | unreadableDir p uid => rfl
  | errEntry p => rfl

theorem scanEntriesList_prune (es : FSEntries) (u : Nat) (r : String) :
    scanEntriesList (pruneEntries es) u r = scanEntriesList es u r := by
  cases es with
  | nil => rfl
  | cons e rest =>
    simp only [pruneEntries, scanEntriesList]
    rw [scanEntry_prune e u r, scanEntriesList_prune rest u r]
end

mutual
theorem scanEntry_root_indep (e : FSEntry) (u : Nat) (r1 r2 : String) :
    scanEntry e u r1 = scanEntry e u r2 := by
  cases e with
  | file p uid => rfl
  | symlink p uid t => rfl
  | dir p uid children =>
    simp only [scanEntry]
    exact scanEntriesList_root_indep children u r1 r2
  | unreadableDir p uid => rfl
  | errEntry p => rfl

theorem scanEntriesList_root_indep (es : FSEntries) (u : Nat) (r1 r2 : String) :
    scanEntriesList es u r1 = scanEntriesList es u r2 := by
  cases es with
  | nil => rfl
  | cons e rest =>
    simp only [scanEntriesList]
    rw [scanEntry_root_indep e u r1 r2, scanEntriesList_root_indep rest u r1 r2]
end

mutual
theorem specOwnedFilesE_sub_filePaths (e : FSEntry) (u : Nat) (p : String)
    (h : p ∈ specOwnedFilesE e u) : p ∈ filePathsE e := by
  cases e with
  | file q uid =>
    by_cases huv : uid = u
    · simp only [specOwnedFilesE, huv, ite_true] at h
      simpa [filePathsE] using h
    · simp [specOwnedFilesE, huv] at h
  | symlink q uid t => simp [specOwnedFilesE] at h
  | dir q uid children =>
    simp only [specOwnedFilesE] at h
    simp only [filePathsE]
    exact specOwnedFilesL_sub_filePaths children u p h
  | unreadableDir q uid => simp [specOwnedFilesE] at h
  | errEntry q => simp [specOwnedFilesE] at h

theorem specOwnedFilesL_sub_filePaths (es : FSEntries) (u : Nat) (p : String)
    (h : p ∈ specOwnedFilesL es u) : p ∈ filePathsL es := by
  cases es with
  | nil => simp [specOwnedFilesL] at h
  | cons e rest =>
    simp only [specOwnedFilesL, List.mem_append] at h
    simp only [filePathsL, List.mem_append]
    cases h with
    | inl h1 => exact Or.inl (specOwnedFilesE_sub_filePaths e u p h1)
    | inr h2 => exact Or.inr (specOwnedFilesL_sub_filePaths rest u p h2)
end

theorem exists_through_new_link (fs : FS) (fp lt : FPath)
    (hchain : resolvesAvoiding fs fp (tmpPath fp) 39 lt = true) :
    pathExists (fun q => if q = fp then some (FNode.symlink lt)
      else if q = tmpPath fp then none else fs q) 40 fp = true := by
  have hagree : ∀ q, q ≠ fp → q ≠ tmpPath fp →
      (fun q => if q = fp then some (FNode.symlink lt)
        else if q = tmpPath fp then none else fs q) q = fs q := by
    intro q h1 h2
    simp [h1, h2]
  have h39 := resolvesAvoiding_pathExists fs _ fp (tmpPath fp) hagree 39 lt hchain
  show pathExists _ (39 + 1) fp = true
  simp only [pathExists, ite_true]
  exact h39

/-- C1: for a call of `replace_one_file_with_symlink` in which the link
target exists, the initial rename of `file_path` to `file_path + ".tmp"`
succeeds, and the subsequent symlink-creation step (the try-block:
directory creation, symlink creation, or `.tmp` removal) fails, afterwards
`file_path` again holds the original regular file with its original
content, no file named `file_path + ".tmp"` remains, and no symlink is
left at `file_path`. -/
theorem claim_C1_replace_restores_on_failure
    (fs : FS) (inputdata_root target_dir file_path : FPath) (c : String) (m s r : Bool)
    (hfile : fs file_path = some (FNode.file c))
    (hex : os_path_exists fs (target_dir ++ relpath file_path inputdata_root) = true)
    (hfail : (m || s || r) = true) :
    (replace_one_file_with_symlink ⟨false, m, s, r⟩ fs inputdata_root target_dir file_path
      false).fs file_path = some (FNode.file c) ∧
    (replace_one_file_with_symlink ⟨false, m, s, r⟩ fs inputdata_root target_dir file_path
      false).fs (tmpPath file_path) = none := by
  rw [replace_tryfail_spec fs inputdata_root target_dir file_path c m s r hfile hex hfail]
  exact ⟨by simp [Ne.symm (tmpPath_ne file_path), hfile], by simp⟩

/-- C1 witness: the restoration theorem applied at a concrete filesystem
with the symlink-creation step made to fail. -/
theorem claim_C1_witness :
    (wFS1 ["in", "a.nc"] = some (FNode.file ("d")) ∧
     os_path_exists wFS1 (["out"] ++ relpath ["in", "a.nc"] ["in"]) = true ∧
     (false || true || false) = true) ∧
    ((replace_one_file_with_symlink ⟨false, false, true, false⟩ wFS1 ["in"] ["out"]
        ["in", "a.nc"] false).fs ["in", "a.nc"] = some (FNode.file ("d")) ∧
     (replace_one_file_with_symlink ⟨false, false, true, false⟩ wFS1 ["in"] ["out"]
        ["in", "a.nc"] false).fs (tmpPath ["in", "a.nc"]) = none) :=
  ⟨⟨by decide, by decide, by decide⟩,
   claim_C1_replace_restores_on_failure wFS1 ["in"] ["out"] ["in", "a.nc"] ("d")
     false true false (by decide) (by decide) (by decide)⟩

/-- C2 counterexample: a fault-free, non-dry-run call that completes with
no filesystem operation failing (the only log line is the success line)
but after which the path does NOT resolve to an existing file through the
link: the staging tree's counterpart `out/a.nc` is a symlink back to
`in/a.nc`, so the replacement creates a two-link cycle and
`os.path.exists(file_path)` is false afterwards, contrary to the claim's
final conjunct. -/
theorem claim_C2_counterexample :
    (replace_one_file_with_symlink noFaults cFS2 ["in"] ["out"] ["in", "a.nc"] false).events
      = [LogEvent.createdSymlink ["in", "a.nc"] ["out", "a.nc"]] ∧
    (replace_one_file_with_symlink noFaults cFS2 ["in"] ["out"] ["in", "a.nc"] false).fs
        ["in", "a.nc"] = some (FNode.symlink ["out", "a.nc"]) ∧
    os_path_exists (replace_one_file_with_symlink noFaults cFS2 ["in"] ["out"]
        ["in", "a.nc"] false).fs ["in", "a.nc"] = false := by
  decide

/-- C2 (amended): a fault-free, non-dry-run call on an existing regular
file whose link target exists leaves `file_path` a symlink whose link
value equals `target_dir` joined with `relpath(file_path, inputdata_root)`,
the original regular file no longer at `file_path`, no `.tmp` remaining,
and only the success log line emitted; and, provided the link target's
pre-call resolution chain reaches a regular file without passing through
`file_path` or `file_path + ".tmp"`, the path still resolves to an
existing file through the link. -/
theorem claim_C2_amended_replace_success
    (fs : FS) (inputdata_root target_dir file_path : FPath) (c : String)
    (hfile : fs file_path = some (FNode.file c))
    (hex : os_path_exists fs (target_dir ++ relpath file_path inputdata_root) = true) :
    (replace_one_file_with_symlink noFaults fs inputdata_root target_dir file_path false).fs
        file_path = some (FNode.symlink (target_dir ++ relpath file_path inputdata_root)) ∧
    (replace_one_file_with_symlink noFaults fs inputdata_root target_dir file_path false).fs
        (tmpPath file_path) = none ∧
    (replace_one_file_with_symlink noFaults fs inputdata_root target_dir file_path false).events
      = [LogEvent.createdSymlink file_path (target_dir ++ relpath file_path inputdata_root)] ∧
    (resolvesAvoiding fs file_path (tmpPath file_path) 39
        (target_dir ++ relpath file_path inputdata_root) = true →
      os_path_exists (replace_one_file_with_symlink noFaults fs inputdata_root target_dir
        file_path false).fs file_path = true) := by
  rw [replace_success_spec fs inputdata_root target_dir file_path c hfile hex]
  refine ⟨by simp, by simp [tmpPath_ne file_path], rfl, ?_⟩
  intro hchain
  exact exists_through_new_link fs file_path
    (target_dir ++ relpath file_path inputdata_root) hchain

/-- C2 witness: the amended success theorem applied at a concrete
filesystem whose link target is a plain staged file. -/
theorem claim_C2_witness :
    (wFS1 ["in", "a.nc"] = some (FNode.file ("d")) ∧
     os_path_exists wFS1 (["out"] ++ relpath ["in", "a.nc"] ["in"]) = true) ∧
    ((replace_one_file_with_symlink noFaults wFS1 ["in"] ["out"] ["in", "a.nc"] false).fs
        ["in", "a.nc"] = some (FNode.symlink (["out"] ++ relpath ["in", "a.nc"] ["in"])) ∧
     (replace_one_file_with_symlink noFaults wFS1 ["in"] ["out"] ["in", "a.nc"] false).fs
        (tmpPath ["in", "a.nc"]) = none ∧
     (replace_one_file_with_symlink noFaults wFS1 ["in"] ["out"] ["in", "a.nc"] false).events
       = [LogEvent.createdSymlink ["in", "a.nc"] (["out"] ++ relpath ["in", "a.nc"] ["in"])] ∧
     (resolvesAvoiding wFS1 ["in", "a.nc"] (tmpPath ["in", "a.nc"]) 39
         (["out"] ++ relpath ["in", "a.nc"] ["in"]) = true →
       os_path_exists (replace_one_file_with_symlink noFaults wFS1 ["in"] ["out"]
         ["in", "a.nc"] false).fs ["in", "a.nc"] = true)) :=
  ⟨⟨by decide, by decide⟩,
   claim_C2_amended_replace_success wFS1 ["in"] ["out"] ["in", "a.nc"] ("d")
     (by decide) (by decide)⟩

/-- C8: when the computed link target does not exist,
`replace_one_file_with_symlink` emits a warning naming the missing
counterpart and the file, and returns with the filesystem unchanged, for
any fault setting and any dry-run setting; no error log line is produced. -/
theorem claim_C8_replace_warns_when_target_missing
    (faults : Faults) (fs : FS) (inputdata_root target_dir file_path : FPath)
    (dry_run : Bool)
    (hnex : os_path_exists fs (target_dir ++ relpath file_path inputdata_root) = false) :
    replace_one_file_with_symlink faults fs inputdata_root target_dir file_path dry_run
      = ⟨fs, [LogEvent.warnNotFound (target_dir ++ relpath file_path inputdata_root)
          file_path]⟩ := by
  simp [replace_one_file_with_symlink, hnex]

/-- C8 witness: the warning theorem applied at a concrete filesystem with
no staged counterpart for `in/o.nc`. -/
theorem claim_C8_witness :
    (os_path_exists wFS8 (["out"] ++ relpath ["in", "o.nc"] ["in"]) = false) ∧
    replace_one_file_with_symlink noFaults wFS8 ["in"] ["out"] ["in", "o.nc"] false
      = ⟨wFS8, [LogEvent.warnNotFound (["out"] ++ relpath ["in", "o.nc"] ["in"])
          ["in", "o.nc"]]⟩ :=
  ⟨by decide,
   claim_C8_replace_warns_when_target_missing noFaults wFS8 ["in"] ["out"] ["in", "o.nc"]
     false (by decide)⟩

/-- C6: a non-directory entry examined via `handle_non_dir` is emitted iff
its lstat owner uid equals the target uid and it is a regular file when
symlinks are not followed (for the string form: `isfile` and not
`islink`); a symlink entry is never emitted and never an error; and the
scan yields exactly the plain files owned by the uid and zero symlinks. -/
theorem claim_C6_ownership_filter (u : Nat) :
    (∀ e : DirEntryView, (e.is_symlink = true → e.is_file_nofollow = false) →
      ((handle_non_dir (Sum.inl e) u = some e.path) ↔
        (e.st_uid = u ∧ e.is_file_nofollow = true)) ∧
      (e.is_symlink = true → handle_non_dir (Sum.inl e) u = none)) ∧
    (∀ v : PathView,
      ((handle_non_dir (Sum.inr v) u = some v.path) ↔
        (v.st_uid = u ∧ v.isfile = true ∧ v.islink = false)) ∧
      (v.islink = true → handle_non_dir (Sum.inr v) u = none)) ∧
    (∀ (es : FSEntries) (r : String),
      find_owned_files_scandir (ScanItem.openedDir es) u r = specOwnedFilesL es u) ∧
    (∀ (es : FSEntries) (r p : String),
      (filePathsL es ++ symlinkPathsL es).Nodup → p ∈ symlinkPathsL es →
      p ∉ find_owned_files_scandir (ScanItem.openedDir es) u r) := by
  refine ⟨?_, ?_, ?_, ?_⟩
  · intro e hwf
    constructor
    · constructor
      · intro h
        by_cases h1 : e.st_uid = u
        · by_cases h2 : e.is_file_nofollow = true
          · exact ⟨h1, h2⟩
          · simp [handle_non_dir, handle_non_dir_entry, h1, h2] at h
        · simp [handle_non_dir, handle_non_dir_entry, h1] at h
      · rintro ⟨h1, h2⟩
        simp [handle_non_dir, handle_non_dir_entry, h1, h2]
    · intro hs
      have h2 := hwf hs
      simp [handle_non_dir, handle_non_dir_entry, h2]
  · intro v
    constructor
    · constructor
      · intro h
        by_cases h1 : v.st_uid = u
        · by_cases h2 : v.islink = true
          · simp [handle_non_dir, handle_non_dir_str, h1, h2] at h
          · by_cases h3 : v.isfile = true
            · refine ⟨h1, h3, ?_⟩
              simpa using h2
            · simp [handle_non_dir, handle_non_dir_str, h1, h2, h3] at h
        · simp [handle_non_dir, handle_non_dir_str, h1] at h
      · rintro ⟨h1, h2, h3⟩
        simp [handle_non_dir, handle_non_dir_str, h1, h2, h3]
    · intro hl
      simp [handle_non_dir, handle_non_dir_str, hl]
  · intro es r
    exact scanEntriesList_eq_spec es u r
  · intro es r p hnd hp hmem
    have hmem2 : p ∈ specOwnedFilesL es u := by
      rw [← scanEntriesList_eq_spec es u r]
      exact hmem
    have hf : p ∈ filePathsL es := specOwnedFilesL_sub_filePaths es u p hmem2
    rw [List.nodup_append] at hnd
    exact hnd.2.2 hf hp

/-- C6 witness: the filter theorem applied to a concrete owned regular
file entry and to a concrete listing in which the owned symlink `in/l.nc`
is not yielded. -/
theorem claim_C6_witness :
    (((⟨("p"), 7, true, false⟩ : DirEntryView).is_symlink = true →
      (⟨("p"), 7, true, false⟩ : DirEntryView).is_file_nofollow = false) ∧
     handle_non_dir (Sum.inl (⟨("p"), 7, true, false⟩ : DirEntryView)) 7 = some ("p")) ∧
    ((filePathsL wTree ++ symlinkPathsL wTree).Nodup ∧
     ("in/l.nc") ∈ symlinkPathsL wTree ∧
     ("in/l.nc") ∉ find_owned_files_scandir (ScanItem.openedDir wTree) 100 ("r")) :=
  ⟨⟨by decide,
    (((claim_C6_ownership_filter 7).1 ⟨("p"), 7, true, false⟩ (by decide)).1).mpr (by decide)⟩,
   ⟨by decide, by decide,
    (claim_C6_ownership_filter 100).2.2.2 wTree ("r") ("in/l.nc") (by decide) (by decide)⟩⟩

/-- C7: the scan recurses only into entries that are directories when
symlinks are not followed: its output is unchanged when every symlink's
target is erased from the tree, and every yielded path is the path of a
plain-file node of the tree itself — so a symlink to a directory is never
descended into and its contents never contribute any path. -/
theorem claim_C7_no_descent_into_symlinked_dirs (es : FSEntries) (u : Nat) (r : String) :
    find_owned_files_scandir (pruneItem (ScanItem.openedDir es)) u r
      = find_owned_files_scandir (ScanItem.openedDir es) u r ∧
    (∀ p : String, p ∈ find_owned_files_scandir (ScanItem.openedDir es) u r →
      p ∈ filePathsL es) := by
  constructor
  · exact scanEntriesList_prune es u r
  · intro p hmem
    refine specOwnedFilesL_sub_filePaths es u p ?_
    rw [← scanEntriesList_eq_spec es u r]
    exact hmem

/-- C7 witness: a tree holding a symlink to an external directory that
contains a file owned by the scanned-for user; the external file is not
yielded, while the tree's own plain file is and lies among the tree's
plain-file paths. -/
theorem claim_C7_witness :
    ("ext/owned.nc") ∉ find_owned_files_scandir (ScanItem.openedDir wTree7) 100 ("r") ∧
    (("in/a.nc") ∈ find_owned_files_scandir (ScanItem.openedDir wTree7) 100 ("r") ∧
     ("in/a.nc") ∈ filePathsL wTree7) :=
  ⟨by decide,
   by decide,
   (claim_C7_no_descent_into_symlinked_dirs wTree7 100 ("r")).2 ("in/a.nc") (by decide)⟩

/-- C9: for every starting item and target uid, the sequence yielded by
`find_owned_files_scandir` is the same for any two values of the
`inputdata_root` argument: the root is threaded through the recursion but
never filters or alters the output. -/
theorem claim_C9_scan_independent_of_inputdata_root (item : ScanItem) (u : Nat)
    (r1 r2 : String) :
    find_owned_files_scandir item u r1 = find_owned_files_scandir item u r2 := by
  cases item with
  | openedDir es => exact scanEntriesList_root_indep es u r1 r2
  | nonDirItem v => rfl
  | openErr => rfl

/-- C10: when the starting item cannot be opened (os.scandir raises an
OSError or PermissionError other than NotADirectoryError, as for a
nonexistent path), `find_owned_files_scandir` propagates nothing: the
error is logged and the generator yields the empty sequence. -/
theorem claim_C10_scan_open_error_yields_nothing (u : Nat) (r : String) :
    find_owned_files_scandir ScanItem.openErr u r = [] := rfl

theorem appended_ne_of_not_hasRoot (source staging rest : FPath)
    (hstg : pathHasRoot source staging = false) : staging ++ rest ≠ source := by
  intro h
  rw [← h, pathHasRoot_append] at hstg
  simp at hstg

theorem stage_data_symlink_branch (f : Faults) (cd : FPath → Bool) (fs : FS)
    (source in_r st_r t : FPath) (check : Bool)
    (h : fs source = some (FNode.symlink t)) :
    (stage_data f cd fs source in_r st_r check).fs = fs ∧
    (stage_data f cd fs source in_r st_r check).events.all (fun e => !e.isCopy) = true := by
  simp only [stage_data, h]
  cases hr : resolveFinal fs 40 t with
  | none => exact ⟨rfl, rfl⟩
  | some final =>
    dsimp only
    by_cases hp : pathHasRoot final st_r = true
    · rw [if_pos hp]
      refine ⟨rfl, ?_⟩
      cases hcd : cd final <;> simp [hcd, LogEvent.isCopy]
    · rw [if_neg hp]
      exact ⟨rfl, rfl⟩

/-- C3: a source path that exists as a regular file, lies outside the
staging root, and is not a descendant of (or equal to) the inputdata root
is rejected by `stage_data` with the "not under inputdata root" error, no
filesystem change and no log output; containment is the component-wise
ancestor test `pathHasRoot`, so this holds for every such path, including
paths whose string contains a staging-root marker substring. -/
theorem claim_C3_rejects_source_outside_inputdata_root
    (faults : Faults) (canDownload : FPath → Bool) (fs : FS)
    (sourceP inputdata_root staging_root : FPath) (c : String) (check : Bool)
    (hfile : fs sourceP = some (FNode.file c))
    (hstg : pathHasRoot sourceP staging_root = false)
    (hroot : pathHasRoot sourceP inputdata_root = false) :
    stage_data faults canDownload fs sourceP inputdata_root staging_root check
      = ⟨fs, [], some StageErr.notUnderInputdataRoot⟩ := by
  simp only [stage_data, hfile]
  rw [if_neg (by simp [hstg]), if_pos hroot]

/-- C3 witness: the rejection theorem applied to a path outside the
inputdata root whose file name contains the staging-root marker
`d651077` as a substring. -/
theorem claim_C3_witness :
    (wFS3 wOutsideSrc = some (FNode.file ("data")) ∧
     pathHasRoot wOutsideSrc wStaging = false ∧
     pathHasRoot wOutsideSrc ["in"] = false) ∧
    stage_data noFaults (fun _ => false) wFS3 wOutsideSrc ["in"] wStaging false
      = ⟨wFS3, [], some StageErr.notUnderInputdataRoot⟩ :=
  ⟨⟨by decide, by decide, by decide⟩,
   claim_C3_rejects_source_outside_inputdata_root noFaults (fun _ => false) wFS3
     wOutsideSrc ["in"] wStaging ("data") false (by decide) (by decide) (by decide)⟩

/-- C4: for a plain file under the inputdata root whose staging
counterpart already exists, `stage_data` performs no copy (no copy event
is emitted) and only relinks: the source becomes a symlink to the staged
path, every other path except the transient `.tmp` is untouched, and no
error is raised; running it again on the resulting state changes nothing
and again performs no copy. -/
theorem claim_C4_already_published_relinks_without_copy
    (cd : FPath → Bool) (fs : FS) (source inputdata_root staging_root : FPath) (c : String)
    (hfile : fs source = some (FNode.file c))
    (hin : pathHasRoot source inputdata_root = true)
    (hstg : pathHasRoot source staging_root = false)
    (hex : os_path_exists fs (staging_root ++ relpath source inputdata_root) = true) :
    (stage_data noFaults cd fs source inputdata_root staging_root false).err = none ∧
    (stage_data noFaults cd fs source inputdata_root staging_root false).events.all
      (fun e => !e.isCopy) = true ∧
    (stage_data noFaults cd fs source inputdata_root staging_root false).fs source
      = some (FNode.symlink (staging_root ++ relpath source inputdata_root)) ∧
    (∀ q, q ≠ source → q ≠ tmpPath source →
      (stage_data noFaults cd fs source inputdata_root staging_root false).fs q = fs q) ∧
    ((stage_data noFaults cd
        (stage_data noFaults cd fs source inputdata_root staging_root false).fs
        source inputdata_root staging_root false).fs
      = (stage_data noFaults cd fs source inputdata_root staging_root false).fs ∧
     (stage_data noFaults cd
        (stage_data noFaults cd fs source inputdata_root staging_root false).fs
        source inputdata_root staging_root false).events.all (fun e => !e.isCopy) = true) := by
  have hrepl := replace_success_spec fs inputdata_root staging_root source c hfile hex
  have hck : check_relink_worked
      (fun q => if q = source then
          some (FNode.symlink (staging_root ++ relpath source inputdata_root))
        else if q = tmpPath source then none else fs q)
      source (staging_root ++ relpath source inputdata_root) = none := by
    simp [check_relink_worked]
  have hmain : stage_data noFaults cd fs source inputdata_root staging_root false =
      ⟨fun q => if q = source then
          some (FNode.symlink (staging_root ++ relpath source inputdata_root))
        else if q = tmpPath source then none else fs q,
       [.publishedNotLinked source,
        .createdSymlink source (staging_root ++ relpath source inputdata_root),
        if cd (staging_root ++ relpath source inputdata_root) then
          .downloadable (staging_root ++ relpath source inputdata_root)
        else .notDownloadable (staging_root ++ relpath source inputdata_root)],
       none⟩ := by
    simp only [stage_data, hfile]
    rw [if_neg (by simp [hstg]), if_neg (by simp [hin]), if_pos hex, hrepl]
    dsimp only
    rw [hck]
    rfl
  rw [hmain]
  refine ⟨rfl, ?_, by simp, ?_, ?_⟩
  · cases hcd : cd (staging_root ++ relpath source inputdata_root) <;>
      simp [hcd, LogEvent.isCopy]
  · intro q h1 h2
    simp [h1, h2]
  · exact stage_data_symlink_branch noFaults cd _ source inputdata_root staging_root
      (staging_root ++ relpath source inputdata_root) false (by simp)

/-- C4 witness: the no-copy relink theorem applied where `in/b.nc` already
has a staged counterpart under the staging root. -/
theorem claim_C4_witness :
    (wFS4 ["in", "b.nc"] = some (FNode.file ("data")) ∧
     pathHasRoot ["in", "b.nc"] ["in"] = true ∧
     pathHasRoot ["in", "b.nc"] wStaging = false ∧
     os_path_exists wFS4 (wStaging ++ relpath ["in", "b.nc"] ["in"]) = true) ∧
    (stage_data noFaults (fun _ => true) wFS4 ["in", "b.nc"] ["in"] wStaging false).err
      = none ∧
    (stage_data noFaults (fun _ => true) wFS4 ["in", "b.nc"] ["in"] wStaging false).events.all
      (fun e => !e.isCopy) = true :=
  ⟨⟨by decide, by decide, by decide, by decide⟩,
   (claim_C4_already_published_relinks_without_copy (fun _ => true) wFS4 ["in", "b.nc"]
      ["in"] wStaging ("data") (by decide) (by decide) (by decide) (by decide)).1,
   (claim_C4_already_published_relinks_without_copy (fun _ => true) wFS4 ["in", "b.nc"]
      ["in"] wStaging ("data") (by decide) (by decide) (by decide) (by decide)).2.1⟩

/-- C5: in the copy-and-relink branch (staged copy absent, not check
mode), when the relink step fails so that the source is not afterwards a
symlink to the staged path, `stage_data` raises the "Error relinking
during rimport" error, while the already-performed copy is not rolled
back: the staged path still holds the original content (and the source
file itself was restored by the replace step's own recovery). -/
theorem claim_C5_relink_failure_raises_and_keeps_copy
    (cd : FPath → Bool) (fs : FS) (source inputdata_root staging_root : FPath) (c : String)
    (m s r : Bool)
    (hfile : fs source = some (FNode.file c))
    (hin : pathHasRoot source inputdata_root = true)
    (hne : source ≠ inputdata_root)
    (hstg : pathHasRoot source staging_root = false)
    (hnex : os_path_exists fs (staging_root ++ relpath source inputdata_root) = false)
    (hfail : (m || s || r) = true) :
    (stage_data ⟨false, m, s, r⟩ cd fs source inputdata_root staging_root false).err
      = some StageErr.relinkFailed ∧
    (stage_data ⟨false, m, s, r⟩ cd fs source inputdata_root staging_root false).fs
      (staging_root ++ relpath source inputdata_root) = some (FNode.file c) ∧
    (stage_data ⟨false, m, s, r⟩ cd fs source inputdata_root staging_root false).fs source
      = some (FNode.file c) := by
  obtain ⟨rest, hrest⟩ := pathHasRoot_decomp inputdata_root source hin
  have hrne : rest ≠ [] := by
    intro h0
    rw [h0, List.append_nil] at hrest
    exact hne hrest
  have hrel : relpath source inputdata_root = rest := by
    rw [hrest, relpath_append]
  have hstm : staging_root ++ relpath source inputdata_root ≠ tmpPath source := by
    rw [hrel, hrest]
    exact staged_ne_tmpPath inputdata_root staging_root rest hrne
  have hcopy_src : fsCopy2 fs source (staging_root ++ relpath source inputdata_root) source
      = some (FNode.file c) := by
    simp [fsCopy2, hfile]
  have hcopy_staged : fsCopy2 fs source (staging_root ++ relpath source inputdata_root)
      (staging_root ++ relpath source inputdata_root) = some (FNode.file c) := by
    simp [fsCopy2, hfile]
  have hex1 : os_path_exists
      (fsCopy2 fs source (staging_root ++ relpath source inputdata_root))
      (staging_root ++ relpath source inputdata_root) = true :=
    os_path_exists_file _ _ c hcopy_staged
  have hrepl := replace_tryfail_spec
    (fsCopy2 fs source (staging_root ++ relpath source inputdata_root))
    inputdata_root staging_root source c m s r hcopy_src hex1 hfail
  have hck : check_relink_worked
      (fun q => if q = tmpPath source then none else
        fsCopy2 fs source (staging_root ++ relpath source inputdata_root) q)
      source (staging_root ++ relpath source inputdata_root)
      = some StageErr.relinkFailed := by
    simp [check_relink_worked, Ne.symm (tmpPath_ne source), hcopy_src]
  have hmain : stage_data ⟨false, m, s, r⟩ cd fs source inputdata_root staging_root false =
      ⟨fun q => if q = tmpPath source then none else
          fsCopy2 fs source (staging_root ++ relpath source inputdata_root) q,
       [.copied source (staging_root ++ relpath source inputdata_root),
        .errCreatingSymlink source],
       some StageErr.relinkFailed⟩ := by
    simp only [stage_data, hfile]
    rw [if_neg (by simp [hstg]), if_neg (by simp [hin]), if_neg (by simp [hnex]),
      if_neg (by simp), hrepl]
    dsimp only
    rw [hck]
  rw [hmain]
  exact ⟨rfl, by simp [hstm, hcopy_staged], by simp [Ne.symm (tmpPath_ne source), hcopy_src]⟩

/-- C5 witness: the relink-failure theorem applied where `in/c.nc` has no
staged copy yet and the symlink-creation operation is made to fail. -/
theorem claim_C5_witness :
    (wFS5 ["in", "c.nc"] = some (FNode.file ("data")) ∧
     pathHasRoot ["in", "c.nc"] ["in"] = true ∧
     (["in", "c.nc"] : FPath) ≠ ["in"] ∧
     pathHasRoot ["in", "c.nc"] wStaging = false ∧
     os_path_exists wFS5 (wStaging ++ relpath ["in", "c.nc"] ["in"]) = false ∧
     (false || true || false) = true) ∧
    ((stage_data ⟨false, false, true, false⟩ (fun _ => true) wFS5 ["in", "c.nc"] ["in"]
        wStaging false).err = some StageErr.relinkFailed ∧
     (stage_data ⟨false, false, true, false⟩ (fun _ => true) wFS5 ["in", "c.nc"] ["in"]
        wStaging false).fs (wStaging ++ relpath ["in", "c.nc"] ["in"])
       = some (FNode.file ("data")) ∧
     (stage_data ⟨false, false, true, false⟩ (fun _ => true) wFS5 ["in", "c.nc"] ["in"]
        wStaging false).fs ["in", "c.nc"] = some (FNode.file ("data"))) :=
  ⟨⟨by decide, by decide, by decide, by decide, by decide, by decide⟩,
   claim_C5_relink_failure_raises_and_keeps_copy (fun _ => true) wFS5 ["in", "c.nc"]
     ["in"] wStaging ("data") false true false (by decide) (by decide) (by decide)
     (by decide) (by decide) (by decide)⟩
